import Mathlib

/-!
Verification of the powerbook-keyboard-usb firmware core.

This file gives a shallow embedding of the two core subsystems of the
firmware and proves the stated properties about them:

- the ADB mouse poller (src/ADBMouse.c): accumulator updates with
  saturation, button decoding, timeout behaviour;
- the keyboard matrix scanner (src/KeyboardSwitchMatrix.c): raw state and
  count maintenance, ghost detection, cooked key state updates;
- the HID report tasks (src/KeyboardMouse.c): keyboard report building
  with the 6-key rollover rule, mouse report emission and accumulator
  zeroing.

Machine integers are modelled as Nat or Int, with explicit mod-2^w
arithmetic where the C code can wrap (the uint8_t row/column press
counters). Hardware reads (column pin levels, the 16-bit ADB register)
are passed in as explicit inputs.
-/

namespace PowerbookKeyboardUsb

/-! ### ADB mouse poller (src/ADBMouse.c) -/

/-- Mouse-side global state of ADBMouse.c: the two int16_t accumulators
AccumulatedX and AccumulatedY and the two button state bytes. In C all
four are zero-initialised globals. -/
structure MouseState where
  AccumulatedX : Int
  AccumulatedY : Int
  Button1State : Nat
  Button2State : Nat
deriving DecidableEq

/-- Initial value of the mouse globals (C zero-initialisation). -/
def initMouseState : MouseState :=
  { AccumulatedX := 0, AccumulatedY := 0, Button1State := 0, Button2State := 0 }

/-- Interpretation of a 7-bit ADB delta field exactly as ADBPollMouse does:
a field below 0x40 contributes the field itself, a field at or above 0x40
contributes field - 0x80. -/
def adbDecodeDelta (f : Nat) : Int :=
  if f < 0x40 then (f : Int) else (f : Int) - 0x80

/-- The accumulator update of ADBPollMouse for one axis: add the decoded
delta, clamping above at ACCUMULATED_MAX = 127 in the positive branch and
below at ACCUMULATED_MIN = -127 in the negative branch, exactly as the two
branches of the C code do. -/
def adbApplyDelta (acc : Int) (f : Nat) : Int :=
  if f < 0x40 then
    let a := acc + adbDecodeDelta f
    if 127 < a then 127 else a
  else
    let a := acc + adbDecodeDelta f
    if a < -127 then -127 else a

/-- ADBPollMouse from src/ADBMouse.c. The hardware interaction
(ADBWriteCommand 0x3c followed by ADBRead16) is modelled by the
readResult input: none models an ADB timeout (ADBRead16 returned 0),
some reg models a successful read of the 16-bit register value reg.
Returns the updated state together with the C return value
(1 = mouse reported something, 0 = timeout). -/
def ADBPollMouse (st : MouseState) (readResult : Option Nat) : MouseState × Nat :=
  match readResult with
  | none => (st, 0)
  | some reg =>
      let b1 : Nat := if reg &&& 0x8000 = 0 then 1 else 0
      let b2 : Nat := if reg &&& 0x0080 = 0 then 1 else 0
      let x : Nat := reg &&& 0x007f
      let y : Nat := (reg &&& 0x7f00) >>> 8
      ({ AccumulatedX := adbApplyDelta st.AccumulatedX x,
         AccumulatedY := adbApplyDelta st.AccumulatedY y,
         Button1State := b1,
         Button2State := b2 }, 1)

/-- Two-complement truncation of an integer to a signed 8-bit value, the
meaning of the (int8_t) casts in Mouse_HID_Task. -/
def castToInt8 (v : Int) : Int :=
  (v + 128) % 256 - 128

/-- The USB mouse boot report as filled in by Mouse_HID_Task. -/
structure MouseReport where
  Button : Nat
  X : Int
  Y : Int
deriving DecidableEq

/-- Mouse_HID_Task from src/KeyboardMouse.c, for the configured-device
path. It always polls the mouse (readResult is the outcome of that poll);
if the mouse IN endpoint is ready for read/write it builds the report from
the polled state, zeroes AccumulatedX and AccumulatedY, and emits the
report. Returns the final state and the emitted report, if any. -/
def Mouse_HID_Task (st : MouseState) (readResult : Option Nat)
    (endpointReady : Bool) : MouseState × Option MouseReport :=
  let st1 := (ADBPollMouse st readResult).1
  if endpointReady then
    let rep : MouseReport :=
      { Button := st1.Button1State ||| (st1.Button2State <<< 1),
        X := castToInt8 st1.AccumulatedX,
        Y := castToInt8 st1.AccumulatedY }
    ({ st1 with AccumulatedX := 0, AccumulatedY := 0 }, some rep)
  else
    (st1, none)

/-- One event in the life of the mouse accumulators: either one call to
ADBPollMouse (with a timeout or an arbitrary register value), or the
reset of both accumulators to zero performed by Mouse_HID_Task after a
report emission. -/
inductive MouseEvent where
  | poll (readResult : Option Nat)
  | reset
deriving DecidableEq

/-- Apply one MouseEvent to the mouse state. -/
def applyMouseEvent (st : MouseState) (ev : MouseEvent) : MouseState :=
  match ev with
  | .poll r => (ADBPollMouse st r).1
  | .reset => { st with AccumulatedX := 0, AccumulatedY := 0 }

/-- The encoder from the round-trip law of the specification:
encode d is d & 0x7F, which for two-complement integers is the
non-negative remainder of d modulo 128. -/
def adbEncodeDelta (d : Int) : Nat :=
  (d % 128).toNat

/-- Range property of one axis of the mouse state. -/
def accInRange (v : Int) : Prop :=
  -127 ≤ v ∧ v ≤ 127

/-! ### Keyboard switch matrix scanner (src/KeyboardSwitchMatrix.c) -/

/-- Number of rows in the keyboard switch matrix. -/
def MATRIX_ROWS : Nat := 8

/-- Number of columns in the keyboard switch matrix. -/
def MATRIX_COLUMNS : Nat := 16

/-- Number of rows scanned per call to KeyboardScanMatrix. -/
def ROWS_PER_REPORT : Nat := 2

/-- The IS_GHOST_FREE_COLUMN macro: columns whose switches have series
diodes (GUI, Caps Lock, Shift, Alt, Control) and are exempt from ghost
detection. -/
def IS_GHOST_FREE_COLUMN (x : Nat) : Bool :=
  x == 9 || x == 10 || x == 12 || x == 13 || x == 14

/-- The KeyboardMatrix table of src/KeyboardSwitchMatrix.c with the LUFA
HID scan-code constants replaced by their numeric values
(for example HID_KEYBOARD_SC_A = 0x04, HID_KEYBOARD_SC_RETURN = 0x9E,
HID_KEYBOARD_SC_LEFT_SHIFT = 0xE1). 0x00 means no key at that location. -/
def KeyboardMatrixTable : List (List Nat) := [
  [0x00, 0x2E, 0x22, 0x21, 0x00, 0x00, 0x00, 0x00,
   0x00, 0xE3, 0x39, 0x29, 0xE1, 0xE2, 0xE0, 0x23],
  [0x18, 0x9E, 0x33, 0x0F, 0x4F, 0x07, 0x52, 0x00,
   0x50, 0xE3, 0x39, 0x2A, 0xE1, 0xE2, 0xE0, 0x34],
  [0x00, 0x12, 0x2F, 0x31, 0x00, 0x00, 0x00, 0x00,
   0x00, 0xE3, 0x39, 0x20, 0xE1, 0xE2, 0xE0, 0x26],
  [0x05, 0x37, 0x36, 0x0D, 0x09, 0x00, 0x51, 0x16,
   0x04, 0xE3, 0x39, 0x0B, 0xE1, 0xE2, 0xE0, 0x38],
  [0x28, 0x00, 0x13, 0x0E, 0x15, 0x08, 0x1A, 0x14,
   0x2B, 0xE3, 0x39, 0x0C, 0xE1, 0xE2, 0xE0, 0x30],
  [0x00, 0x27, 0x1C, 0x0A, 0x00, 0x00, 0x00, 0x00,
   0x00, 0xE3, 0x39, 0x1F, 0xE1, 0xE2, 0xE0, 0x25],
  [0x00, 0x2D, 0x17, 0x35, 0x00, 0x00, 0x00, 0x00,
   0x00, 0xE3, 0x39, 0x1E, 0xE1, 0xE2, 0xE0, 0x24],
  [0x2C, 0x00, 0x10, 0x11, 0x19, 0x06, 0x1B, 0x1D,
   0x00, 0xE3, 0x39, 0x00, 0xE1, 0xE2, 0xE0, 0x00]]

/-- Lookup in the KeyboardMatrix table. -/
def KeyboardMatrix (r c : Nat) : Nat :=
  (KeyboardMatrixTable.getD r []).getD c 0

/-- Pointwise update of a boolean-valued map. -/
def updateFn (f : Nat → Bool) (i : Nat) (v : Bool) : Nat → Bool :=
  fun j => if j = i then v else f j

/-- Pointwise update of a Nat-valued map. -/
def updateNatFn (f : Nat → Nat) (i : Nat) (v : Nat) : Nat → Nat :=
  fun j => if j = i then v else f j

/-- Pointwise update of a two-index boolean grid. -/
def updateFn2 (f : Nat → Nat → Bool) (i j : Nat) (v : Bool) : Nat → Nat → Bool :=
  fun a b => if a = i ∧ b = j then v else f a b

/-- The static state of KeyboardSwitchMatrix.c: the raw switch grid, the
per-row and per-column press counters (uint8_t in C, modelled as Nat with
mod-256 arithmetic at each update), the ghost flags, the cooked KeyPressed
map indexed by scan code, and the current row of the incremental sweep. -/
structure MatrixState where
  RawSwitchPressed : Nat → Nat → Bool
  TotalInRow : Nat → Nat
  TotalInColumn : Nat → Nat
  RowHasGhost : Nat → Bool
  ColumnHasGhost : Nat → Bool
  KeyPressed : Nat → Bool
  CurrentRow : Nat

/-- Initial matrix state (C zero-initialised statics). -/
def initMatrixState : MatrixState :=
  { RawSwitchPressed := fun _ _ => false,
    TotalInRow := fun _ => 0,
    TotalInColumn := fun _ => 0,
    RowHasGhost := fun _ => false,
    ColumnHasGhost := fun _ => false,
    KeyPressed := fun _ => false,
    CurrentRow := 0 }

/-- Body of the double loop of CheckForGhosts for one cell (Row, Column):
skip ghost-free columns; if the cell is a corner (pressed, at least two
presses in its row and in its column) then mark every row that presses
this column and every non-ghost-free column that is pressed in this row.
The accumulator g is the pair (RowHasGhost, ColumnHasGhost). -/
def ghostCell (st : MatrixState) (g : (Nat → Bool) × (Nat → Bool))
    (Row Column : Nat) : (Nat → Bool) × (Nat → Bool) :=
  if IS_GHOST_FREE_COLUMN Column then g
  else if st.RawSwitchPressed Row Column = true ∧
      2 ≤ st.TotalInRow Row ∧ 2 ≤ st.TotalInColumn Column then
    (fun i => if i < MATRIX_ROWS ∧ st.RawSwitchPressed i Column = true
        then true else g.1 i,
     fun j => if j < MATRIX_COLUMNS ∧ IS_GHOST_FREE_COLUMN j = false ∧
          st.RawSwitchPressed Row j = true
        then true else g.2 j)
  else g

/-- Inner Column loop of CheckForGhosts for a fixed Row. -/
def ghostRowPass (st : MatrixState) (Row : Nat)
    (g : (Nat → Bool) × (Nat → Bool)) : (Nat → Bool) × (Nat → Bool) :=
  (List.range MATRIX_COLUMNS).foldl (fun g Column => ghostCell st g Row Column) g

/-- Outer Row loop of CheckForGhosts. -/
def ghostAllPass (st : MatrixState)
    (g : (Nat → Bool) × (Nat → Bool)) : (Nat → Bool) × (Nat → Bool) :=
  (List.range MATRIX_ROWS).foldl (fun g Row => ghostRowPass st Row g) g

/-- CheckForGhosts from src/KeyboardSwitchMatrix.c: clear both ghost
tables, then recompute them by the double loop over all cells. -/
def CheckForGhosts (st : MatrixState) : MatrixState :=
  let g := ghostAllPass st (fun _ => false, fun _ => false)
  { st with RowHasGhost := g.1, ColumnHasGhost := g.2 }

/-- The SwitchPressed computation of KeyboardScanMatrix as written in the
C code: SwitchPressed starts at 0, is set to 1 when the column pin reads
low, and is (redundantly) set to 0 in the branch guarded by the stale
ScanCode value left over from the previous loop iteration. -/
def computeSwitchPressed (pinLow : Bool) (staleScanCode : Nat) : Bool :=
  if pinLow then true
  else if staleScanCode ≠ 0 then false
  else false

/-- One iteration of the CurrentColumn loop of KeyboardScanMatrix:
update the raw state and the row/column counters on a transition, rerun
CheckForGhosts if the switch changed, then update KeyPressed unless the
press is suppressed by a ghost flag. staleScanCode is the value the local
ScanCode variable holds when the iteration starts; the returned Nat is
the value it holds at the end (the scan code of this cell). -/
def cellStep (st : MatrixState) (staleScanCode : Nat) (Row Column : Nat)
    (pinLow : Bool) : MatrixState × Nat :=
  let SwitchPressed := computeSwitchPressed pinLow staleScanCode
  let st1 :=
    if st.RawSwitchPressed Row Column = false ∧ SwitchPressed = true then
      { st with
        TotalInRow := updateNatFn st.TotalInRow Row ((st.TotalInRow Row + 1) % 256),
        TotalInColumn := updateNatFn st.TotalInColumn Column
          ((st.TotalInColumn Column + 1) % 256) }
    else if st.RawSwitchPressed Row Column = true ∧ SwitchPressed = false then
      { st with
        TotalInRow := updateNatFn st.TotalInRow Row ((st.TotalInRow Row + 255) % 256),
        TotalInColumn := updateNatFn st.TotalInColumn Column
          ((st.TotalInColumn Column + 255) % 256) }
    else st
  let SwitchChanged := st.RawSwitchPressed Row Column ≠ SwitchPressed
  let st2 := { st1 with
    RawSwitchPressed := updateFn2 st1.RawSwitchPressed Row Column SwitchPressed }
  let st3 := if SwitchChanged then CheckForGhosts st2 else st2
  let ScanCode := KeyboardMatrix Row Column
  let st4 :=
    if SwitchPressed = false ∨
        (st3.RowHasGhost Row = false ∧ st3.ColumnHasGhost Column = false) then
      { st3 with KeyPressed := updateFn st3.KeyPressed ScanCode SwitchPressed }
    else st3
  (st4, ScanCode)

/-- The CurrentColumn loop of KeyboardScanMatrix over one row. reads c is
the level of column pin c while this row is driven low (true = pin reads
low = key pressed). -/
def scanRowCells (Row : Nat) (reads : Nat → Bool)
    (p : MatrixState × Nat) : MatrixState × Nat :=
  (List.range MATRIX_COLUMNS).foldl
    (fun p Column => cellStep p.1 p.2 Row Column (reads Column)) p

/-- Advance CurrentRow at the end of a row scan: increment and wrap to 0
at MATRIX_ROWS. -/
def advanceCurrentRow (st : MatrixState) : MatrixState :=
  { st with CurrentRow :=
      if MATRIX_ROWS ≤ st.CurrentRow + 1 then 0 else st.CurrentRow + 1 }

/-- KeyboardScanMatrix from src/KeyboardSwitchMatrix.c: scan
ROWS_PER_REPORT rows starting at CurrentRow. reads i c is the level read
on column pin c during the i-th row scan of this call (true = low).
staleScanCode is the indeterminate value of the uninitialised local
ScanCode variable on entry. -/
def KeyboardScanMatrix (reads : Nat → Nat → Bool) (st : MatrixState)
    (staleScanCode : Nat) : MatrixState × Nat :=
  (List.range ROWS_PER_REPORT).foldl
    (fun p i =>
      let q := scanRowCells p.1.CurrentRow (reads i) p
      (advanceCurrentRow q.1, q.2))
    (st, staleScanCode)

/-- Variant of the cell body that tests
KeyboardMatrix[CurrentRow][CurrentColumn] != 0 explicitly instead of the
stale ScanCode local, as the specification says a reimplementation
should. Everything else is identical to cellStep. -/
def cellStepExplicit (st : MatrixState) (Row Column : Nat)
    (pinLow : Bool) : MatrixState :=
  let SwitchPressed :=
    if pinLow then true
    else if KeyboardMatrix Row Column ≠ 0 then false
    else false
  let st1 :=
    if st.RawSwitchPressed Row Column = false ∧ SwitchPressed = true then
      { st with
        TotalInRow := updateNatFn st.TotalInRow Row ((st.TotalInRow Row + 1) % 256),
        TotalInColumn := updateNatFn st.TotalInColumn Column
          ((st.TotalInColumn Column + 1) % 256) }
    else if st.RawSwitchPressed Row Column = true ∧ SwitchPressed = false then
      { st with
        TotalInRow := updateNatFn st.TotalInRow Row ((st.TotalInRow Row + 255) % 256),
        TotalInColumn := updateNatFn st.TotalInColumn Column
          ((st.TotalInColumn Column + 255) % 256) }
    else st
  let SwitchChanged := st.RawSwitchPressed Row Column ≠ SwitchPressed
  let st2 := { st1 with
    RawSwitchPressed := updateFn2 st1.RawSwitchPressed Row Column SwitchPressed }
  let st3 := if SwitchChanged then CheckForGhosts st2 else st2
  let ScanCode := KeyboardMatrix Row Column
  let st4 :=
    if SwitchPressed = false ∨
        (st3.RowHasGhost Row = false ∧ st3.ColumnHasGhost Column = false) then
      { st3 with KeyPressed := updateFn st3.KeyPressed ScanCode SwitchPressed }
    else st3
  st4

/-- The explicit-test variant of the row scan. -/
def scanRowCellsExplicit (Row : Nat) (reads : Nat → Bool)
    (st : MatrixState) : MatrixState :=
  (List.range MATRIX_COLUMNS).foldl
    (fun st Column => cellStepExplicit st Row Column (reads Column)) st

/-- The explicit-test variant of KeyboardScanMatrix. -/
def KeyboardScanMatrixExplicit (reads : Nat → Nat → Bool)
    (st : MatrixState) : MatrixState :=
  (List.range ROWS_PER_REPORT).foldl
    (fun st i => advanceCurrentRow (scanRowCellsExplicit st.CurrentRow (reads i) st))
    st

/-- Population count of one row of the raw switch grid. -/
def popRow (raw : Nat → Nat → Bool) (r : Nat) : Nat :=
  (List.range MATRIX_COLUMNS).countP (fun c => raw r c)

/-- Population count of one column of the raw switch grid. -/
def popColumn (raw : Nat → Nat → Bool) (c : Nat) : Nat :=
  (List.range MATRIX_ROWS).countP (fun r => raw r c)

/-- The counter invariant of the data model: TotalInRow and TotalInColumn
are the exact population counts of RawSwitchPressed. -/
def CountsExact (st : MatrixState) : Prop :=
  (∀ r < MATRIX_ROWS, st.TotalInRow r = popRow st.RawSwitchPressed r) ∧
  (∀ c < MATRIX_COLUMNS, st.TotalInColumn c = popColumn st.RawSwitchPressed c)

instance (st : MatrixState) : Decidable (CountsExact st) := by
  unfold CountsExact
  infer_instance

/-! ### Keyboard HID report building (src/KeyboardMouse.c) -/

/-- The USB keyboard boot report as filled in by Keyboard_HID_Task:
the modifier bitmask byte and the six keycode slots. -/
structure KbReport where
  Modifier : Nat
  KeyCode : List Nat
deriving DecidableEq

/-- The HID modifier bit that Keyboard_HID_Task ors into the modifier
byte for a given modifier scan code, following its if-else chain
(left control 0xE0 through right GUI 0xE7); 0 for non-modifier codes. -/
def hidModifierMask (s : Nat) : Nat :=
  if s = 0xE0 then 0x01
  else if s = 0xE1 then 0x02
  else if s = 0xE2 then 0x04
  else if s = 0xE3 then 0x08
  else if s = 0xE4 then 0x10
  else if s = 0xE5 then 0x20
  else if s = 0xE6 then 0x40
  else if s = 0xE7 then 0x80
  else 0

/-- Whether a scan code is one of the eight modifier codes recognised by
the if-else chain of Keyboard_HID_Task. -/
def isModifierScanCode (s : Nat) : Bool :=
  s == 0xE0 || s == 0xE1 || s == 0xE2 || s == 0xE3 ||
  s == 0xE4 || s == 0xE5 || s == 0xE6 || s == 0xE7

/-- The report-building loop of Keyboard_HID_Task over the remaining scan
codes: modifiers set their bit in the modifier byte; other pressed keys
fill the keycode slots up to MAX_KEYS_PRESSED = 6; a seventh non-modifier
key fills all six slots with HID_KEYBOARD_SC_ERROR_ROLLOVER = 0x01 and
breaks out of the loop. used is the UsedKeyCodes counter. -/
def reportLoop (keyPressed : Nat → Bool) :
    List Nat → Nat → KbReport → KbReport
  | [], _, rep => rep
  | s :: rest, used, rep =>
    if keyPressed s then
      if isModifierScanCode s then
        reportLoop keyPressed rest used
          { rep with Modifier := rep.Modifier ||| hidModifierMask s }
      else if used < 6 then
        reportLoop keyPressed rest (used + 1)
          { rep with KeyCode := rep.KeyCode.set used s }
      else
        { rep with KeyCode := List.replicate 6 0x01 }
    else
      reportLoop keyPressed rest used rep

/-- The scan codes iterated by the report loop: 1 through 255. -/
def scanCodeRange : List Nat := List.range' 1 255

/-- The keyboard report built by Keyboard_HID_Task from a given
KeyPressed map: start from the zeroed report and run the loop over scan
codes 1..255. -/
def Keyboard_HID_Task_report (keyPressed : Nat → Bool) : KbReport :=
  reportLoop keyPressed scanCodeRange 0 { Modifier := 0, KeyCode := List.replicate 6 0 }

/-- The corner condition tested by CheckForGhosts at one cell: the cell
is in a non-ghost-free column, is pressed, and both its row and its
column hold at least two presses. -/
def isCornerCell (st : MatrixState) (Row Column : Nat) : Prop :=
  IS_GHOST_FREE_COLUMN Column = false ∧
  st.RawSwitchPressed Row Column = true ∧
  2 ≤ st.TotalInRow Row ∧ 2 ≤ st.TotalInColumn Column

/-- Raw grid holding exactly the three presses (r1,c1), (r1,c2), (r2,c2). -/
def threePressRaw (r1 c1 r2 c2 : Nat) : Nat → Nat → Bool :=
  fun r c => (r == r1 && c == c1) || (r == r1 && c == c2) || (r == r2 && c == c2)

/-- Matrix state holding exactly the three presses (r1,c1), (r1,c2),
(r2,c2), with the counters set to the exact population counts as the
data-model invariant requires. -/
def threePressState (r1 c1 r2 c2 : Nat) : MatrixState :=
  { RawSwitchPressed := threePressRaw r1 c1 r2 c2,
    TotalInRow := popRow (threePressRaw r1 c1 r2 c2),
    TotalInColumn := popColumn (threePressRaw r1 c1 r2 c2),
    RowHasGhost := fun _ => false,
    ColumnHasGhost := fun _ => false,
    KeyPressed := fun _ => false,
    CurrentRow := 0 }

/-- Number of pressed non-modifier scan codes among a list of scan codes. -/
def countNonModifierPressed (keyPressed : Nat → Bool) (l : List Nat) : Nat :=
  l.countP (fun s => keyPressed s && !isModifierScanCode s)

/-- Physical press pattern of end-to-end scenario 6: Left Shift closed
(its switches sit in column 12 of every row) together with the seven
letter keys U (row 1, column 0), O (row 2, column 1), F (row 3, column
4), E (row 4, column 5), G (row 5, column 3), T (row 6, column 2) and X
(row 7, column 6) - seven non-modifier keys in seven distinct rows and
distinct non-ghost-free columns. -/
def leftShiftSevenLettersPress (r c : Nat) : Bool :=
  c == 12 || (r == 1 && c == 0) || (r == 2 && c == 1) || (r == 3 && c == 4) ||
  (r == 4 && c == 5) || (r == 5 && c == 3) || (r == 6 && c == 2) || (r == 7 && c == 6)

/-- Matrix state after the four KeyboardScanMatrix calls that sweep all
eight rows once under the press pattern above (column pin c reads low
during the sweep of row r exactly when the pattern presses (r, c)). -/
def leftShiftSevenLettersScan : MatrixState :=
  (KeyboardScanMatrix (fun i c => leftShiftSevenLettersPress (6 + i) c)
    (KeyboardScanMatrix (fun i c => leftShiftSevenLettersPress (4 + i) c)
      (KeyboardScanMatrix (fun i c => leftShiftSevenLettersPress (2 + i) c)
        (KeyboardScanMatrix (fun i c => leftShiftSevenLettersPress (0 + i) c)
          initMatrixState 0).1 0).1 0).1 0).1

lemma adbApplyDelta_inRange (acc : Int) (f : Nat) (hf : f ≤ 127)
    (h : accInRange acc) : accInRange (adbApplyDelta acc f) := by
  rcases h with ⟨h1, h2⟩
  simp only [adbApplyDelta, adbDecodeDelta, accInRange]
  split_ifs <;> constructor <;> omega

lemma and_le_right_nat (a b : Nat) : a &&& b ≤ b :=
  Nat.and_le_right

lemma adb_x_field_le (reg : Nat) : reg &&& 0x007f ≤ 127 :=
  Nat.and_le_right

lemma adb_y_field_le (reg : Nat) : (reg &&& 0x7f00) >>> 8 ≤ 127 := by
  have h1 : reg &&& 0x7f00 ≤ 0x7f00 := Nat.and_le_right
  have h2 : (reg &&& 0x7f00) >>> 8 ≤ 0x7f00 >>> 8 := by
    simpa [Nat.shiftRight_eq_div_pow] using Nat.div_le_div_right (c := 2 ^ 8) h1
  simpa using h2

lemma ADBPollMouse_inRange (st : MouseState) (r : Option Nat)
    (hx : accInRange st.AccumulatedX) (hy : accInRange st.AccumulatedY) :
    accInRange (ADBPollMouse st r).1.AccumulatedX ∧
    accInRange (ADBPollMouse st r).1.AccumulatedY := by
  cases r with
  | none => exact ⟨hx, hy⟩
  | some reg =>
      refine ⟨?_, ?_⟩
      · exact adbApplyDelta_inRange _ _ (adb_x_field_le reg) hx
      · exact adbApplyDelta_inRange _ _ (adb_y_field_le reg) hy

lemma applyMouseEvent_inRange (st : MouseState) (ev : MouseEvent)
    (hx : accInRange st.AccumulatedX) (hy : accInRange st.AccumulatedY) :
    accInRange (applyMouseEvent st ev).AccumulatedX ∧
    accInRange (applyMouseEvent st ev).AccumulatedY := by
  cases ev with
  | poll r => exact ADBPollMouse_inRange st r hx hy
  | reset =>
      constructor <;> simp [applyMouseEvent, accInRange]

lemma foldl_mouse_inRange (evs : List MouseEvent) :
    ∀ st : MouseState,
      accInRange st.AccumulatedX → accInRange st.AccumulatedY →
      accInRange (evs.foldl applyMouseEvent st).AccumulatedX ∧
      accInRange (evs.foldl applyMouseEvent st).AccumulatedY := by
  induction evs with
  | nil => intro st hx hy; exact ⟨hx, hy⟩
  | cons ev rest ih =>
      intro st hx hy
      have h := applyMouseEvent_inRange st ev hx hy
      exact ih _ h.1 h.2

/-- C6: starting from zero accumulators, any sequence of ADBPollMouse
calls (arbitrary register values or timeouts) interleaved with resets of
the accumulators keeps AccumulatedX and AccumulatedY within [-127, 127]. -/
theorem mouse_accumulators_stay_in_range (evs : List MouseEvent) :
    -127 ≤ (evs.foldl applyMouseEvent initMouseState).AccumulatedX ∧
    (evs.foldl applyMouseEvent initMouseState).AccumulatedX ≤ 127 ∧
    -127 ≤ (evs.foldl applyMouseEvent initMouseState).AccumulatedY ∧
    (evs.foldl applyMouseEvent initMouseState).AccumulatedY ≤ 127 := by
  have h := foldl_mouse_inRange evs initMouseState
    ⟨by norm_num [initMouseState], by norm_num [initMouseState]⟩
    ⟨by norm_num [initMouseState], by norm_num [initMouseState]⟩
  exact ⟨h.1.1, h.1.2, h.2.1, h.2.2⟩

/-- C7: on an ADB timeout, ADBPollMouse returns 0 and leaves the entire
mouse state (accumulators and button states) exactly unchanged. -/
theorem ADBPollMouse_timeout_no_change (st : MouseState) :
    ADBPollMouse st none = (st, 0) :=
  rfl

/-- C8: whenever Mouse_HID_Task finds the mouse IN endpoint writable, the
state immediately after emission has both accumulators equal to zero, and
the emitted report carries the pre-reset values: byte 0 is
Button1State bitor (Button2State shifted left by one), X and Y are the
accumulators truncated to signed 8 bits. -/
theorem mouse_HID_Task_report_and_zero (st : MouseState) (r : Option Nat) :
    (Mouse_HID_Task st r true).1.AccumulatedX = 0 ∧
    (Mouse_HID_Task st r true).1.AccumulatedY = 0 ∧
    (Mouse_HID_Task st r true).2 = some
      { Button := (ADBPollMouse st r).1.Button1State |||
          ((ADBPollMouse st r).1.Button2State <<< 1),
        X := castToInt8 (ADBPollMouse st r).1.AccumulatedX,
        Y := castToInt8 (ADBPollMouse st r).1.AccumulatedY } := by
  refine ⟨rfl, rfl, rfl⟩

/-- C9: for every delta d in [-64, 63], decoding the 7-bit field the way
ADBPollMouse does inverts the encoding d & 0x7F of the specification. -/
theorem adb_delta_decode_encode (d : Int) (h1 : -64 ≤ d) (h2 : d ≤ 63) :
    adbDecodeDelta (adbEncodeDelta d) = d := by
  unfold adbDecodeDelta adbEncodeDelta
  split_ifs with hlt <;> omega

/-- Witness for C9 at the concrete input d = -2: the encoder produces the
field 0x7E and decoding gives back -2. -/
theorem adb_delta_decode_encode_witness :
    (-64 ≤ (-2 : Int) ∧ (-2 : Int) ≤ 63) ∧
      adbDecodeDelta (adbEncodeDelta (-2)) = (-2 : Int) :=
  ⟨⟨by norm_num, by norm_num⟩, adb_delta_decode_encode (-2) (by norm_num) (by norm_num)⟩

/-! ### Generic fold and count lemmas -/

lemma foldl_preserve {α β : Type} (P : α → Prop) (f : α → β → α) :
    ∀ (l : List β), (∀ a b, b ∈ l → P a → P (f a b)) →
      ∀ a, P a → P (l.foldl f a) := by
  intro l
  induction l with
  | nil => intro _ a ha; exact ha
  | cons x t ih =>
      intro h a ha
      exact ih (fun a b hb => h a b (List.mem_cons_of_mem x hb)) _
        (h a x (List.mem_cons_self x t) ha)

lemma foldl_fixed {α β : Type} (f : α → β → α) :
    ∀ (l : List β), (∀ a b, b ∈ l → f a b = a) → ∀ a, l.foldl f a = a := by
  intro l
  induction l with
  | nil => intro _ a; rfl
  | cons x t ih =>
      intro h a
      rw [List.foldl_cons, h a x (List.mem_cons_self x t)]
      exact ih (fun a b hb => h a b (List.mem_cons_of_mem x hb)) a

lemma countP_update {c : Nat} {p : Nat → Bool} (v : Bool) :
    ∀ {l : List Nat}, l.Nodup → c ∈ l →
      l.countP (fun x => if x = c then v else p x) + (if p c then 1 else 0)
        = l.countP p + (if v then 1 else 0) := by
  intro l
  induction l with
  | nil => intro _ hc; cases hc
  | cons a t ih =>
      intro hnd hc
      have hnd1 : a ∉ t := (List.nodup_cons.mp hnd).1
      have hnd2 : t.Nodup := (List.nodup_cons.mp hnd).2
      rw [List.countP_cons, List.countP_cons]
      rcases List.mem_cons.mp hc with rfl | hct
      · have htc : t.countP (fun x => if x = c then v else p x) = t.countP p := by
          refine List.countP_congr (fun x hx => ?_)
          have hxc : x ≠ c := fun h => hnd1 (h ▸ hx)
          simp [hxc]
        rw [htc]
        have hcc : (if c = c then v else p c) = v := if_pos rfl
        rw [hcc]
        cases v <;> cases hpc : p c <;> simp [hpc]
      · have hac : a ≠ c := fun h => hnd1 (h ▸ hct)
        have := ih hnd2 hct
        simp only [if_neg hac]
        omega

lemma countP_eq_zero_of_all {l : List Nat} {p : Nat → Bool}
    (h : ∀ x ∈ l, p x = false) : l.countP p = 0 := by
  induction l with
  | nil => rfl
  | cons a t ih =>
      rw [List.countP_cons, ih (fun x hx => h x (List.mem_cons_of_mem a hx))]
      simp [h a (List.mem_cons_self a t)]

lemma countP_single {c : Nat} :
    ∀ {l : List Nat}, l.Nodup → c ∈ l → l.countP (fun x => x == c) = 1 := by
  intro l
  induction l with
  | nil => intro _ hc; cases hc
  | cons a t ih =>
      intro hnd hc
      have hnd1 : a ∉ t := (List.nodup_cons.mp hnd).1
      have hnd2 : t.Nodup := (List.nodup_cons.mp hnd).2
      rw [List.countP_cons]
      rcases List.mem_cons.mp hc with rfl | hct
      · have hz : t.countP (fun x => x == c) = 0 :=
          countP_eq_zero_of_all (fun x hx => by
            have hxc : x ≠ c := fun h => hnd1 (h ▸ hx)
            simp [hxc])
        simp [hz]
      · have hac : a ≠ c := fun h => hnd1 (h ▸ hct)
        rw [ih hnd2 hct]
        simp [hac]

lemma countP_pair {c1 c2 : Nat} (h12 : c1 ≠ c2) :
    ∀ {l : List Nat}, l.Nodup → c1 ∈ l → c2 ∈ l →
      l.countP (fun x => x == c1 || x == c2) = 2 := by
  intro l
  induction l with
  | nil => intro _ hc; cases hc
  | cons a t ih =>
      intro hnd hc1 hc2
      have hnd1 : a ∉ t := (List.nodup_cons.mp hnd).1
      have hnd2 : t.Nodup := (List.nodup_cons.mp hnd).2
      rw [List.countP_cons]
      rcases List.mem_cons.mp hc1 with rfl | hc1t
      · have hc2t : c2 ∈ t := by
          rcases List.mem_cons.mp hc2 with h | h
          · exact absurd h.symm h12
          · exact h
        have hcn : t.countP (fun x => x == c1 || x == c2) = t.countP (fun x => x == c2) := by
          refine List.countP_congr (fun x hx => ?_)
          have hxc : x ≠ c1 := fun h => hnd1 (h ▸ hx)
          simp [hxc]
        rw [hcn, countP_single hnd2 hc2t]
        simp
      · rcases List.mem_cons.mp hc2 with rfl | hc2t
        · have hcn : t.countP (fun x => x == c1 || x == c2) = t.countP (fun x => x == c1) := by
            refine List.countP_congr (fun x hx => ?_)
            have hxc : x ≠ c2 := fun h => hnd1 (h ▸ hx)
            simp [hxc]
          rw [hcn, countP_single hnd2 hc1t]
          simp
        · have hac1 : a ≠ c1 := fun h => hnd1 (h ▸ hc1t)
          have hac2 : a ≠ c2 := fun h => hnd1 (h ▸ hc2t)
          rw [ih hnd2 hc1t hc2t]
          simp [hac1, hac2]

/-! ### Population count lemmas for the raw grid -/

lemma popRow_le (raw : Nat → Nat → Bool) (r : Nat) :
    popRow raw r ≤ MATRIX_COLUMNS := by
  simpa [popRow] using List.countP_le_length (fun c => raw r c)
    (l := List.range MATRIX_COLUMNS)

lemma popColumn_le (raw : Nat → Nat → Bool) (c : Nat) :
    popColumn raw c ≤ MATRIX_ROWS := by
  simpa [popColumn] using List.countP_le_length (fun r => raw r c)
    (l := List.range MATRIX_ROWS)

lemma popRow_update_other (raw : Nat → Nat → Bool) (r c : Nat) (v : Bool)
    {r2 : Nat} (h : r2 ≠ r) :
    popRow (updateFn2 raw r c v) r2 = popRow raw r2 := by
  unfold popRow
  refine List.countP_congr (fun x _ => ?_)
  simp [updateFn2, h]

lemma popColumn_update_other (raw : Nat → Nat → Bool) (r c : Nat) (v : Bool)
    {c2 : Nat} (h : c2 ≠ c) :
    popColumn (updateFn2 raw r c v) c2 = popColumn raw c2 := by
  unfold popColumn
  refine List.countP_congr (fun x _ => ?_)
  simp [updateFn2, h]

lemma popRow_update_self (raw : Nat → Nat → Bool) (r : Nat) {c : Nat}
    (hc : c < MATRIX_COLUMNS) (v : Bool) :
    popRow (updateFn2 raw r c v) r + (if raw r c then 1 else 0)
      = popRow raw r + (if v then 1 else 0) := by
  unfold popRow
  have hcongr : (List.range MATRIX_COLUMNS).countP (fun x => updateFn2 raw r c v r x)
      = (List.range MATRIX_COLUMNS).countP (fun x => if x = c then v else raw r x) := by
    refine List.countP_congr (fun x _ => ?_)
    simp [updateFn2]
  rw [hcongr]
  exact countP_update v (List.nodup_range MATRIX_COLUMNS) (List.mem_range.mpr hc)

lemma popColumn_update_self (raw : Nat → Nat → Bool) {r : Nat} (c : Nat)
    (hr : r < MATRIX_ROWS) (v : Bool) :
    popColumn (updateFn2 raw r c v) c + (if raw r c then 1 else 0)
      = popColumn raw c + (if v then 1 else 0) := by
  unfold popColumn
  have hcongr : (List.range MATRIX_ROWS).countP (fun x => updateFn2 raw r c v x c)
      = (List.range MATRIX_ROWS).countP (fun x => if x = r then v else raw x c) := by
    refine List.countP_congr (fun x _ => ?_)
    simp [updateFn2]
  rw [hcongr]
  exact countP_update v (List.nodup_range MATRIX_ROWS) (List.mem_range.mpr hr)

/-! ### Field projections of the scanner steps -/

lemma CheckForGhosts_RawSwitchPressed (st : MatrixState) :
    (CheckForGhosts st).RawSwitchPressed = st.RawSwitchPressed := rfl

lemma CheckForGhosts_TotalInRow (st : MatrixState) :
    (CheckForGhosts st).TotalInRow = st.TotalInRow := rfl

lemma CheckForGhosts_TotalInColumn (st : MatrixState) :
    (CheckForGhosts st).TotalInColumn = st.TotalInColumn := rfl

lemma CheckForGhosts_CurrentRow (st : MatrixState) :
    (CheckForGhosts st).CurrentRow = st.CurrentRow := rfl

lemma cellStep_RawSwitchPressed (st : MatrixState) (stale Row Column : Nat)
    (pinLow : Bool) :
    (cellStep st stale Row Column pinLow).1.RawSwitchPressed
      = updateFn2 st.RawSwitchPressed Row Column (computeSwitchPressed pinLow stale) := by
  simp only [cellStep]
  split_ifs <;> rfl

lemma cellStep_TotalInRow (st : MatrixState) (stale Row Column : Nat)
    (pinLow : Bool) :
    (cellStep st stale Row Column pinLow).1.TotalInRow
      = (if st.RawSwitchPressed Row Column = false ∧
            computeSwitchPressed pinLow stale = true then
           updateNatFn st.TotalInRow Row ((st.TotalInRow Row + 1) % 256)
         else if st.RawSwitchPressed Row Column = true ∧
            computeSwitchPressed pinLow stale = false then
           updateNatFn st.TotalInRow Row ((st.TotalInRow Row + 255) % 256)
         else st.TotalInRow) := by
  simp only [cellStep]
  split_ifs <;> rfl

lemma cellStep_TotalInColumn (st : MatrixState) (stale Row Column : Nat)
    (pinLow : Bool) :
    (cellStep st stale Row Column pinLow).1.TotalInColumn
      = (if st.RawSwitchPressed Row Column = false ∧
            computeSwitchPressed pinLow stale = true then
           updateNatFn st.TotalInColumn Column ((st.TotalInColumn Column + 1) % 256)
         else if st.RawSwitchPressed Row Column = true ∧
            computeSwitchPressed pinLow stale = false then
           updateNatFn st.TotalInColumn Column ((st.TotalInColumn Column + 255) % 256)
         else st.TotalInColumn) := by
  simp only [cellStep]
  split_ifs <;> rfl

lemma cellStep_CurrentRow (st : MatrixState) (stale Row Column : Nat)
    (pinLow : Bool) :
    (cellStep st stale Row Column pinLow).1.CurrentRow = st.CurrentRow := by
  simp only [cellStep]
  split_ifs <;> rfl

/-! ### C3: the counters are exact population counts -/

lemma cellStep_counts (st : MatrixState) (stale Row Column : Nat) (pinLow : Bool)
    (hR : Row < MATRIX_ROWS) (hC : Column < MATRIX_COLUMNS)
    (hinv : CountsExact st) :
    CountsExact (cellStep st stale Row Column pinLow).1 := by
  rcases hinv with ⟨hrowInv, hcolInv⟩
  constructor
  · intro r hr
    rw [cellStep_TotalInRow, cellStep_RawSwitchPressed]
    rcases eq_or_ne r Row with rfl | hne
    · have hle : popRow st.RawSwitchPressed r ≤ 16 := popRow_le st.RawSwitchPressed r
      have hbase := hrowInv r hr
      cases hold : st.RawSwitchPressed r Column <;>
        cases hspv : computeSwitchPressed pinLow stale
      · have hself := popRow_update_self st.RawSwitchPressed r hC false
        rw [hold] at hself
        simp [updateNatFn] at hself ⊢
        omega
      · have hself := popRow_update_self st.RawSwitchPressed r hC true
        rw [hold] at hself
        simp [updateNatFn] at hself ⊢
        omega
      · have hself := popRow_update_self st.RawSwitchPressed r hC false
        rw [hold] at hself
        simp [updateNatFn] at hself ⊢
        omega
      · have hself := popRow_update_self st.RawSwitchPressed r hC true
        rw [hold] at hself
        simp [updateNatFn] at hself ⊢
        omega
    · have hother := popRow_update_other st.RawSwitchPressed Row Column
        (computeSwitchPressed pinLow stale) hne
      have hbase := hrowInv r hr
      split_ifs <;> simp [updateNatFn, hne, hother, hbase]
  · intro c hc
    rw [cellStep_TotalInColumn, cellStep_RawSwitchPressed]
    rcases eq_or_ne c Column with rfl | hne
    · have hle : popColumn st.RawSwitchPressed c ≤ 8 := popColumn_le st.RawSwitchPressed c
      have hbase := hcolInv c hc
      cases hold : st.RawSwitchPressed Row c <;>
        cases hspv : computeSwitchPressed pinLow stale
      · have hself := popColumn_update_self st.RawSwitchPressed c hR false
        rw [hold] at hself
        simp [updateNatFn] at hself ⊢
        omega
      · have hself := popColumn_update_self st.RawSwitchPressed c hR true
        rw [hold] at hself
        simp [updateNatFn] at hself ⊢
        omega
      · have hself := popColumn_update_self st.RawSwitchPressed c hR false
        rw [hold] at hself
        simp [updateNatFn] at hself ⊢
        omega
      · have hself := popColumn_update_self st.RawSwitchPressed c hR true
        rw [hold] at hself
        simp [updateNatFn] at hself ⊢
        omega
    · have hother := popColumn_update_other st.RawSwitchPressed Row Column
        (computeSwitchPressed pinLow stale) hne
      have hbase := hcolInv c hc
      split_ifs <;> simp [updateNatFn, hne, hother, hbase]

lemma scanRowCells_counts (Row : Nat) (reads : Nat → Bool)
    (hR : Row < MATRIX_ROWS) :
    ∀ p : MatrixState × Nat, CountsExact p.1 →
      CountsExact (scanRowCells Row reads p).1 := by
  intro p hp
  unfold scanRowCells
  refine foldl_preserve (fun q => CountsExact q.1) _ _ ?_ p hp
  intro a b hb ha
  exact cellStep_counts a.1 a.2 Row b (reads b) hR (List.mem_range.mp hb) ha

/-- C3: KeyboardScanMatrix preserves exactness of the row and column
press counters, for every choice of column pin readings and every initial
value of the stale ScanCode local. -/
theorem KeyboardScanMatrix_counts_exact (reads : Nat → Nat → Bool)
    (st : MatrixState) (staleScanCode : Nat)
    (hrow : st.CurrentRow < MATRIX_ROWS) (hinv : CountsExact st) :
    CountsExact (KeyboardScanMatrix reads st staleScanCode).1 := by
  unfold KeyboardScanMatrix
  have h := foldl_preserve
    (fun p : MatrixState × Nat => CountsExact p.1 ∧ p.1.CurrentRow < MATRIX_ROWS)
    (fun p i =>
      let q := scanRowCells p.1.CurrentRow (reads i) p
      (advanceCurrentRow q.1, q.2))
    (List.range ROWS_PER_REPORT) ?_ (st, staleScanCode) ⟨hinv, hrow⟩
  · exact h.1
  · intro a b _ ha
    constructor
    · exact scanRowCells_counts a.1.CurrentRow (reads b) ha.2 a ha.1
    · simp only [advanceCurrentRow]
      split_ifs with h8
      · simp [MATRIX_ROWS]
      · omega

/-- Witness for C3 at a concrete input: the zero-initialised matrix state
satisfies the invariant and keeps it after one scan with all column pins
reading low. -/
theorem KeyboardScanMatrix_counts_exact_witness :
    (initMatrixState.CurrentRow < MATRIX_ROWS ∧ CountsExact initMatrixState) ∧
      CountsExact (KeyboardScanMatrix (fun _ _ => true) initMatrixState 0).1 :=
  ⟨⟨by decide, by decide⟩,
    KeyboardScanMatrix_counts_exact (fun _ _ => true) initMatrixState 0
      (by decide) (by decide)⟩

lemma CountsExact_advanceCurrentRow (st : MatrixState) :
    CountsExact (advanceCurrentRow st) ↔ CountsExact st :=
  Iff.rfl

/-! ### C4: a released key always clears its KeyPressed entry -/

/-- C4: whenever the sampled column pin reads high (switch released), the
cell body of KeyboardScanMatrix writes 0 to the KeyPressed entry of that
cell, whatever the ghost flags and the rest of the state are. -/
theorem cellStep_release_clears_KeyPressed (st : MatrixState)
    (staleScanCode Row Column : Nat) :
    (cellStep st staleScanCode Row Column false).1.KeyPressed
      (KeyboardMatrix Row Column) = false := by
  have hsp : computeSwitchPressed false staleScanCode = false := by
    simp [computeSwitchPressed]
  simp only [cellStep, hsp]
  split_ifs <;> simp_all [updateFn]

/-! ### C10: the stale ScanCode test is benign -/

lemma computeSwitchPressed_eq_pinLow (pinLow : Bool) (staleScanCode : Nat) :
    computeSwitchPressed pinLow staleScanCode = pinLow := by
  cases pinLow <;> simp [computeSwitchPressed]

lemma cellStep_eq_explicit (st : MatrixState) (stale Row Column : Nat)
    (pinLow : Bool) :
    cellStep st stale Row Column pinLow
      = (cellStepExplicit st Row Column pinLow, KeyboardMatrix Row Column) := by
  have h1 := computeSwitchPressed_eq_pinLow pinLow stale
  have h2 : (if pinLow then true
      else if KeyboardMatrix Row Column ≠ 0 then false else false) = pinLow := by
    cases pinLow <;> simp
  simp only [cellStep, cellStepExplicit, h1, h2]

lemma scanRowCells_eq_explicit (Row : Nat) (reads : Nat → Bool) :
    ∀ (l : List Nat) (st : MatrixState) (stale : Nat),
      (l.foldl (fun p Column => cellStep p.1 p.2 Row Column (reads Column))
          (st, stale)).1
        = l.foldl (fun s Column => cellStepExplicit s Row Column (reads Column)) st := by
  intro l
  induction l with
  | nil => intro st stale; rfl
  | cons a t ih =>
      intro st stale
      rw [List.foldl_cons, List.foldl_cons, cellStep_eq_explicit]
      exact ih _ _

lemma scanRowCells_fst_explicit (Row : Nat) (reads : Nat → Bool)
    (st : MatrixState) (stale : Nat) :
    (scanRowCells Row reads (st, stale)).1
      = scanRowCellsExplicit Row reads st := by
  unfold scanRowCells scanRowCellsExplicit
  exact scanRowCells_eq_explicit Row reads _ st stale

lemma KeyboardScanMatrix_fold_eq_explicit (reads : Nat → Nat → Bool) :
    ∀ (l : List Nat) (st : MatrixState) (stale : Nat),
      (l.foldl (fun p i =>
          let q := scanRowCells p.1.CurrentRow (reads i) p
          (advanceCurrentRow q.1, q.2)) (st, stale)).1
        = l.foldl (fun s i =>
            advanceCurrentRow (scanRowCellsExplicit s.CurrentRow (reads i) s)) st := by
  intro l
  induction l with
  | nil => intro st stale; rfl
  | cons a t ih =>
      intro st stale
      simp only [List.foldl_cons]
      rw [scanRowCells_fst_explicit st.CurrentRow (reads a) st stale]
      exact ih _ _

/-- C10: the SwitchPressed computed by KeyboardScanMatrix equals the
column-pin-reads-low predicate for every value the stale ScanCode local
may hold, and consequently the whole scan (raw state, counters, ghost
flags, cooked state) is equivalent to the scanner that tests
KeyboardMatrix[CurrentRow][CurrentColumn] != 0 explicitly. -/
theorem KeyboardScanMatrix_stale_ScanCode_benign :
    (∀ (pinLow : Bool) (staleScanCode : Nat),
      computeSwitchPressed pinLow staleScanCode = pinLow) ∧
    (∀ (reads : Nat → Nat → Bool) (st : MatrixState) (staleScanCode : Nat),
      (KeyboardScanMatrix reads st staleScanCode).1
        = KeyboardScanMatrixExplicit reads st) := by
  constructor
  · exact computeSwitchPressed_eq_pinLow
  · intro reads st stale
    unfold KeyboardScanMatrix KeyboardScanMatrixExplicit
    exact KeyboardScanMatrix_fold_eq_explicit reads _ st stale

/-! ### C2: ghost symmetry for three-press configurations -/

lemma ghostCell_of_not_corner (st : MatrixState)
    (g : (Nat → Bool) × (Nat → Bool)) (R C : Nat)
    (h : ¬ isCornerCell st R C) : ghostCell st g R C = g := by
  unfold ghostCell
  split_ifs with h1 h2
  · rfl
  · exact absurd ⟨Bool.eq_false_iff.mpr h1, h2.1, h2.2.1, h2.2.2⟩ h
  · rfl

lemma ghostCell_fst_mono (st : MatrixState)
    (g : (Nat → Bool) × (Nat → Bool)) (R C i : Nat)
    (h : g.1 i = true) : (ghostCell st g R C).1 i = true := by
  unfold ghostCell
  split_ifs
  · exact h
  · show (if i < MATRIX_ROWS ∧ st.RawSwitchPressed i C = true
        then true else g.1 i) = true
    split_ifs with hm
    · rfl
    · exact h
  · exact h

lemma ghostCell_fst_marks (st : MatrixState)
    (g : (Nat → Bool) × (Nat → Bool)) (R C i : Nat)
    (hc : isCornerCell st R C) (hi : i < MATRIX_ROWS)
    (hr : st.RawSwitchPressed i C = true) :
    (ghostCell st g R C).1 i = true := by
  rcases hc with ⟨hgf, hraw, hrow, hcol⟩
  unfold ghostCell
  rw [if_neg (by simp [hgf]), if_pos ⟨hraw, hrow, hcol⟩]
  show (if i < MATRIX_ROWS ∧ st.RawSwitchPressed i C = true
      then true else g.1 i) = true
  rw [if_pos ⟨hi, hr⟩]

lemma ghostRowPass_fst_mono (st : MatrixState) (R : Nat)
    (g : (Nat → Bool) × (Nat → Bool)) (i : Nat)
    (h : g.1 i = true) : (ghostRowPass st R g).1 i = true := by
  unfold ghostRowPass
  exact foldl_preserve (fun g => g.1 i = true) _ _
    (fun a b _ ha => ghostCell_fst_mono st a R b i ha) g h

lemma ghostRowPass_fst_marks (st : MatrixState) (R : Nat)
    (g : (Nat → Bool) × (Nat → Bool)) (C i : Nat)
    (hC : C < MATRIX_COLUMNS) (hc : isCornerCell st R C)
    (hi : i < MATRIX_ROWS) (hr : st.RawSwitchPressed i C = true) :
    (ghostRowPass st R g).1 i = true := by
  obtain ⟨l1, l2, hsplit⟩ := List.append_of_mem (List.mem_range.mpr hC)
  unfold ghostRowPass
  rw [hsplit, List.foldl_append, List.foldl_cons]
  exact foldl_preserve (fun g => g.1 i = true) _ l2
    (fun a b _ ha => ghostCell_fst_mono st a R b i ha) _
    (ghostCell_fst_marks st _ R C i ⟨hc.1, hc.2.1, hc.2.2.1, hc.2.2.2⟩ hi hr)

lemma ghostAllPass_fst_marks (st : MatrixState)
    (g : (Nat → Bool) × (Nat → Bool)) (R C i : Nat)
    (hR : R < MATRIX_ROWS) (hC : C < MATRIX_COLUMNS)
    (hc : isCornerCell st R C) (hi : i < MATRIX_ROWS)
    (hr : st.RawSwitchPressed i C = true) :
    (ghostAllPass st g).1 i = true := by
  obtain ⟨l1, l2, hsplit⟩ := List.append_of_mem (List.mem_range.mpr hR)
  unfold ghostAllPass
  rw [hsplit, List.foldl_append, List.foldl_cons]
  exact foldl_preserve (fun g => g.1 i = true) _ l2
    (fun a b _ ha => ghostRowPass_fst_mono st b a i ha) _
    (ghostRowPass_fst_marks st R _ C i hC hc hi hr)

lemma CheckForGhosts_RowHasGhost_marks (st : MatrixState) (R C i : Nat)
    (hR : R < MATRIX_ROWS) (hC : C < MATRIX_COLUMNS)
    (hc : isCornerCell st R C) (hi : i < MATRIX_ROWS)
    (hr : st.RawSwitchPressed i C = true) :
    (CheckForGhosts st).RowHasGhost i = true := by
  show (ghostAllPass st (fun _ => false, fun _ => false)).1 i = true
  exact ghostAllPass_fst_marks st _ R C i hR hC hc hi hr

lemma ghostAllPass_of_no_corner (st : MatrixState)
    (h : ∀ R C, R < MATRIX_ROWS → C < MATRIX_COLUMNS → ¬ isCornerCell st R C)
    (g : (Nat → Bool) × (Nat → Bool)) : ghostAllPass st g = g := by
  unfold ghostAllPass
  refine foldl_fixed _ _ ?_ g
  intro a R hR
  unfold ghostRowPass
  refine foldl_fixed _ _ ?_ a
  intro b C hC
  exact ghostCell_of_not_corner st b R C
    (h R C (List.mem_range.mp hR) (List.mem_range.mp hC))

lemma CheckForGhosts_of_no_corner (st : MatrixState)
    (h : ∀ R C, R < MATRIX_ROWS → C < MATRIX_COLUMNS → ¬ isCornerCell st R C) :
    ((CheckForGhosts st).RowHasGhost = fun _ => false) ∧
    ((CheckForGhosts st).ColumnHasGhost = fun _ => false) := by
  constructor
  · show (ghostAllPass st (fun _ => false, fun _ => false)).1 = fun _ => false
    rw [ghostAllPass_of_no_corner st h]
  · show (ghostAllPass st (fun _ => false, fun _ => false)).2 = fun _ => false
    rw [ghostAllPass_of_no_corner st h]

lemma threePressRaw_true_iff (r1 c1 r2 c2 R C : Nat) :
    threePressRaw r1 c1 r2 c2 R C = true ↔
      (R = r1 ∧ C = c1) ∨ (R = r1 ∧ C = c2) ∨ (R = r2 ∧ C = c2) := by
  simp [threePressRaw, or_assoc]

lemma threePress_popRow_r1 {r1 c1 r2 c2 : Nat} (hr12 : r1 ≠ r2)
    (hc12 : c1 ≠ c2) (hc1 : c1 < MATRIX_COLUMNS) (hc2 : c2 < MATRIX_COLUMNS) :
    popRow (threePressRaw r1 c1 r2 c2) r1 = 2 := by
  unfold popRow
  have hcongr : (List.range MATRIX_COLUMNS).countP
        (fun c => threePressRaw r1 c1 r2 c2 r1 c)
      = (List.range MATRIX_COLUMNS).countP (fun c => c == c1 || c == c2) := by
    refine List.countP_congr (fun x _ => ?_)
    simp [threePressRaw, hr12]
  rw [hcongr]
  exact countP_pair hc12 (List.nodup_range _)
    (List.mem_range.mpr hc1) (List.mem_range.mpr hc2)

lemma threePress_popColumn_c2 {r1 c1 r2 c2 : Nat} (hr12 : r1 ≠ r2)
    (hc12 : c1 ≠ c2) (hr1 : r1 < MATRIX_ROWS) (hr2 : r2 < MATRIX_ROWS) :
    popColumn (threePressRaw r1 c1 r2 c2) c2 = 2 := by
  unfold popColumn
  have h21 : c2 ≠ c1 := Ne.symm hc12
  have hcongr : (List.range MATRIX_ROWS).countP
        (fun r => threePressRaw r1 c1 r2 c2 r c2)
      = (List.range MATRIX_ROWS).countP (fun r => r == r1 || r == r2) := by
    refine List.countP_congr (fun x _ => ?_)
    simp [threePressRaw, h21]
  rw [hcongr]
  exact countP_pair hr12 (List.nodup_range _)
    (List.mem_range.mpr hr1) (List.mem_range.mpr hr2)

lemma threePress_popColumn_c1 {r1 c1 r2 c2 : Nat} (hc12 : c1 ≠ c2)
    (hr1 : r1 < MATRIX_ROWS) :
    popColumn (threePressRaw r1 c1 r2 c2) c1 = 1 := by
  unfold popColumn
  have hcongr : (List.range MATRIX_ROWS).countP
        (fun r => threePressRaw r1 c1 r2 c2 r c1)
      = (List.range MATRIX_ROWS).countP (fun r => r == r1) := by
    refine List.countP_congr (fun x _ => ?_)
    simp [threePressRaw, hc12]
  rw [hcongr]
  exact countP_single (List.nodup_range _) (List.mem_range.mpr hr1)

/-- C2: for a raw state with exactly the three presses (r1,c1), (r1,c2),
(r2,c2) and exact counters, CheckForGhosts marks both (r1,c1) and
(r2,c2) as ghosted (row or column flag set) when neither c1 nor c2 is a
ghost-free column, and sets no row or column ghost flag at all when both
c1 and c2 are ghost-free columns. -/
theorem CheckForGhosts_three_press_symmetry (r1 c1 r2 c2 : Nat)
    (hr1 : r1 < MATRIX_ROWS) (hr2 : r2 < MATRIX_ROWS)
    (hc1 : c1 < MATRIX_COLUMNS) (hc2 : c2 < MATRIX_COLUMNS)
    (hr12 : r1 ≠ r2) (hc12 : c1 ≠ c2) :
    ((IS_GHOST_FREE_COLUMN c1 = false ∧ IS_GHOST_FREE_COLUMN c2 = false) →
      (((CheckForGhosts (threePressState r1 c1 r2 c2)).RowHasGhost r1 = true ∨
        (CheckForGhosts (threePressState r1 c1 r2 c2)).ColumnHasGhost c1 = true) ∧
       ((CheckForGhosts (threePressState r1 c1 r2 c2)).RowHasGhost r2 = true ∨
        (CheckForGhosts (threePressState r1 c1 r2 c2)).ColumnHasGhost c2 = true))) ∧
    ((IS_GHOST_FREE_COLUMN c1 = true ∧ IS_GHOST_FREE_COLUMN c2 = true) →
      ((∀ i, (CheckForGhosts (threePressState r1 c1 r2 c2)).RowHasGhost i = false) ∧
       (∀ j, (CheckForGhosts (threePressState r1 c1 r2 c2)).ColumnHasGhost j = false))) := by
  constructor
  · rintro ⟨hgf1, hgf2⟩
    have hraw1 : (threePressState r1 c1 r2 c2).RawSwitchPressed r1 c2 = true := by
      simp [threePressState, threePressRaw]
    have hraw2 : (threePressState r1 c1 r2 c2).RawSwitchPressed r2 c2 = true := by
      simp [threePressState, threePressRaw]
    have hcorner : isCornerCell (threePressState r1 c1 r2 c2) r1 c2 := by
      refine ⟨hgf2, hraw1, ?_, ?_⟩
      · show 2 ≤ popRow (threePressRaw r1 c1 r2 c2) r1
        rw [threePress_popRow_r1 hr12 hc12 hc1 hc2]
      · show 2 ≤ popColumn (threePressRaw r1 c1 r2 c2) c2
        rw [threePress_popColumn_c2 hr12 hc12 hr1 hr2]
    constructor
    · exact Or.inl (CheckForGhosts_RowHasGhost_marks _ r1 c2 r1 hr1 hc2 hcorner hr1 hraw1)
    · exact Or.inl (CheckForGhosts_RowHasGhost_marks _ r1 c2 r2 hr1 hc2 hcorner hr2 hraw2)
  · rintro ⟨hgf1, hgf2⟩
    have hnc : ∀ R C, R < MATRIX_ROWS → C < MATRIX_COLUMNS →
        ¬ isCornerCell (threePressState r1 c1 r2 c2) R C := by
      rintro R C hR hC ⟨hgf, hraw, hrowc, hcolc⟩
      have h3 := (threePressRaw_true_iff r1 c1 r2 c2 R C).mp hraw
      rcases h3 with ⟨hRe, hCe⟩ | ⟨hRe, hCe⟩ | ⟨hRe, hCe⟩
      · rw [hCe] at hcolc
        have hcolc2 : 2 ≤ popColumn (threePressRaw r1 c1 r2 c2) c1 := hcolc
        have hone : popColumn (threePressRaw r1 c1 r2 c2) c1 = 1 :=
          threePress_popColumn_c1 hc12 hr1
        omega
      · rw [hCe] at hgf
        exact absurd hgf (by simp [hgf2])
      · rw [hCe] at hgf
        exact absurd hgf (by simp [hgf2])
    have hfix := CheckForGhosts_of_no_corner (threePressState r1 c1 r2 c2) hnc
    constructor
    · intro i
      rw [hfix.1]
    · intro j
      rw [hfix.2]

/-- Witness for C2 at the concrete configuration r1 = 0, c1 = 0, r2 = 1,
c2 = 1 (columns 0 and 1 are not ghost-free, so the first branch applies
non-vacuously). -/
theorem CheckForGhosts_three_press_symmetry_witness :
    ((0 : Nat) < MATRIX_ROWS ∧ (1 : Nat) < MATRIX_ROWS ∧
     (0 : Nat) < MATRIX_COLUMNS ∧ (1 : Nat) < MATRIX_COLUMNS ∧
     (0 : Nat) ≠ 1 ∧ (0 : Nat) ≠ 1) ∧
    (((IS_GHOST_FREE_COLUMN 0 = false ∧ IS_GHOST_FREE_COLUMN 1 = false) →
      (((CheckForGhosts (threePressState 0 0 1 1)).RowHasGhost 0 = true ∨
        (CheckForGhosts (threePressState 0 0 1 1)).ColumnHasGhost 0 = true) ∧
       ((CheckForGhosts (threePressState 0 0 1 1)).RowHasGhost 1 = true ∨
        (CheckForGhosts (threePressState 0 0 1 1)).ColumnHasGhost 1 = true))) ∧
     ((IS_GHOST_FREE_COLUMN 0 = true ∧ IS_GHOST_FREE_COLUMN 1 = true) →
      ((∀ i, (CheckForGhosts (threePressState 0 0 1 1)).RowHasGhost i = false) ∧
       (∀ j, (CheckForGhosts (threePressState 0 0 1 1)).ColumnHasGhost j = false)))) :=
  ⟨⟨by decide, by decide, by decide, by decide, by decide, by decide⟩,
    CheckForGhosts_three_press_symmetry 0 0 1 1 (by decide) (by decide)
      (by decide) (by decide) (by decide) (by decide)⟩

/-! ### C5: rollover fills all six keycode slots -/

lemma reportLoop_rollover (keyPressed : Nat → Bool) :
    ∀ (l : List Nat) (used : Nat) (rep : KbReport),
      used ≤ 6 → rep.KeyCode.length = 6 →
      6 < used + countNonModifierPressed keyPressed l →
      (reportLoop keyPressed l used rep).KeyCode = List.replicate 6 0x01 := by
  intro l
  induction l with
  | nil =>
      intro used rep hused hlen hcount
      exfalso
      simp [countNonModifierPressed] at hcount
      omega
  | cons s t ih =>
      intro used rep hused hlen hcount
      unfold countNonModifierPressed at hcount
      rw [List.countP_cons] at hcount
      cases hkp : keyPressed s with
      | false =>
          have hstep : reportLoop keyPressed (s :: t) used rep
              = reportLoop keyPressed t used rep := by
            simp [reportLoop, hkp]
          rw [hstep]
          refine ih used rep hused hlen ?_
          simp only [hkp, Bool.false_and, Bool.false_eq_true, if_false] at hcount
          unfold countNonModifierPressed
          omega
      | true =>
          cases hmod : isModifierScanCode s with
          | true =>
              have hstep : reportLoop keyPressed (s :: t) used rep
                  = reportLoop keyPressed t used
                      { rep with Modifier := rep.Modifier ||| hidModifierMask s } := by
                simp [reportLoop, hkp, hmod]
              rw [hstep]
              refine ih used _ hused (by simpa using hlen) ?_
              simp only [hkp, hmod, Bool.not_true, Bool.and_false,
                Bool.false_eq_true, if_false] at hcount
              unfold countNonModifierPressed
              omega
          | false =>
              by_cases h6 : used < 6
              · have hstep : reportLoop keyPressed (s :: t) used rep
                    = reportLoop keyPressed t (used + 1)
                        { rep with KeyCode := rep.KeyCode.set used s } := by
                  simp [reportLoop, hkp, hmod, h6]
                rw [hstep]
                refine ih (used + 1) _ (by omega)
                  (by simpa [List.length_set] using hlen) ?_
                simp only [hkp, hmod, Bool.not_false, Bool.and_true, if_true] at hcount
                unfold countNonModifierPressed
                omega
              · have hstep : reportLoop keyPressed (s :: t) used rep
                    = { rep with KeyCode := List.replicate 6 0x01 } := by
                  simp [reportLoop, hkp, hmod, h6]
                rw [hstep]

/-- C5: whenever the KeyPressed map has more than six non-modifier scan
codes set among codes 1..255, the keyboard report built by
Keyboard_HID_Task carries HID_KEYBOARD_SC_ERROR_ROLLOVER = 0x01 in all
six keycode slots. -/
theorem Keyboard_HID_Task_rollover (keyPressed : Nat → Bool)
    (h : 6 < countNonModifierPressed keyPressed scanCodeRange) :
    (Keyboard_HID_Task_report keyPressed).KeyCode = List.replicate 6 0x01 :=
  reportLoop_rollover keyPressed scanCodeRange 0 _
    (by norm_num) (by simp) (by simpa using h)

set_option maxRecDepth 1000000

/-- Witness for C5 at a concrete KeyPressed map with the seven letter
codes 4..10 set. -/
theorem Keyboard_HID_Task_rollover_witness :
    6 < countNonModifierPressed (fun s => decide (4 ≤ s ∧ s ≤ 10)) scanCodeRange ∧
    (Keyboard_HID_Task_report (fun s => decide (4 ≤ s ∧ s ≤ 10))).KeyCode
      = List.replicate 6 0x01 :=
  ⟨by decide, Keyboard_HID_Task_rollover _ (by decide)⟩

/-! ### C1: rollover scenario with Left Shift and seven letters pressed -/

/-- C1: evaluation of the code at the scenario-6 matrix state. The cooked
state does record Left Shift (scan code 0xE1) as pressed, and the report
has all six keycode slots filled with 0x01; but the modifier byte of the
report is 0, so the Left Shift modifier bit is NOT set: the report loop
breaks out at the seventh non-modifier key (X = 0x1B) before it ever
reaches the modifier scan codes at 0xE0..0xE7. -/
theorem Keyboard_HID_Task_rollover_drops_shift_modifier :
    leftShiftSevenLettersScan.KeyPressed 0xE1 = true ∧
    (Keyboard_HID_Task_report leftShiftSevenLettersScan.KeyPressed).KeyCode
      = List.replicate 6 0x01 ∧
    (Keyboard_HID_Task_report leftShiftSevenLettersScan.KeyPressed).Modifier = 0 := by
  decide

end PowerbookKeyboardUsb
